import Mathlib

/-!
# Verification of the image-to-video pipeline (Image-To-Video-YT)

A shallow embedding of the core of `src/001.py` and `src/YT-Creator.py`:
the Frame Compositor (`process_image`), the Clip Builder / Timeline
Assembler loop inside `generate_video`, and the audio derivation of
`add_audio_to_video`.

Pixel buffers are modelled by their dimensions together with the identity
of the source image the pixels derive from: none of the dimension or
placement computations of `process_image` depends on pixel values, and
the source identity is what the ordering properties of the timeline are
about.  Durations and scale factors are exact rationals (Python uses
IEEE doubles; the quantities involved are far from the rounding scale of
doubles, and the geometric claims are about exact arithmetic).
-/

/-- A decoded image buffer, abstracted to its dimensions and the identity
(`src`) of the source image its pixels derive from.  `cv2.imread` returns
`None` on a decode failure, so a decode result is an `Option Buffer`. -/
structure Buffer where
  width : ℕ
  height : ℕ
  src : ℕ
deriving DecidableEq

/-- Model of `cv2.cvtColor(frame, cv2.COLOR_BGR2RGB)`: reorders channels only, the
dimensions and source of the buffer are unchanged. -/
def cvtColor (img : Buffer) : Buffer := img

/-- Model of `cv2.GaussianBlur(frame, (99, 99), 30)`: blurs the pixel values, the
dimensions and source of the buffer are unchanged. -/
def gaussianBlur (img : Buffer) : Buffer := img

/-- Model of `cv2.resize(img, (w, h))` with the default `fx = fy = 0`: returns a
`w`×`h` buffer with the same source.  When the requested `dsize` is empty
(`w = 0` or `h = 0`), OpenCV falls back to the scale-factor path and its
assertion `inv_scale_x > 0` fails for the default `fx = fy = 0`, raising
`cv2.error`; both callers in the repository wrap `process_image` in
`try/except`, so a raised resize error is modelled as `none`. -/
def cvResize (img : Buffer) (w h : ℕ) : Option Buffer :=
  if w = 0 ∨ h = 0 then none else some ⟨w, h, img.src⟩

/-- The scale factor `scale = min(video_width / img_width, video_height / img_height)`
(src/001.py line 25, src/YT-Creator.py line 27). -/
def scaleFactor (srcW srcH W H : ℕ) : ℚ :=
  min ((W : ℚ) / (srcW : ℚ)) ((H : ℚ) / (srcH : ℚ))

/-- The scaled width `new_width = int(img_width * scale)` (src/001.py line 26).  Python's
`int()` truncates toward zero; the operand is nonnegative, so this is the
floor. -/
def newWidth (srcW srcH W H : ℕ) : ℕ :=
  (⌊(srcW : ℚ) * scaleFactor srcW srcH W H⌋).toNat

/-- The scaled height `new_height = int(img_height * scale)` (src/001.py line 27). -/
def newHeight (srcW srcH W H : ℕ) : ℕ :=
  (⌊(srcH : ℚ) * scaleFactor srcW srcH W H⌋).toNat

/-- The paste offset `x_offset = (video_width - new_width) // 2` (src/001.py line 30);
Python `//` is floor division, `Int.fdiv` in Lean. -/
def x_offset (srcW srcH W H : ℕ) : ℤ :=
  Int.fdiv ((W : ℤ) - (newWidth srcW srcH W H : ℤ)) 2

/-- The paste offset `y_offset = (video_height - new_height) // 2` (src/001.py line 31). -/
def y_offset (srcW srcH W H : ℕ) : ℤ :=
  Int.fdiv ((H : ℤ) - (newHeight srcW srcH W H : ℤ)) 2

/-- Model of `process_image(image_path, video_width, video_height)` from
src/001.py lines 11–37 (the computation in src/YT-Creator.py lines 8–41
is identical), given the decode result of the source image in place of
its path.  The `try/except` that converts any raised error into a `None`
return is modelled by the `Option` result: the foreground
`cv2.resize` raises when a scaled dimension truncates to zero, and the
NumPy region assignment
`background[y_offset:y_offset+new_height, x_offset:x_offset+new_width] = resized_image`
raises `ValueError` when the selected region's shape differs from
`(new_height, new_width)`, i.e. when the paste region is not entirely
within the canvas; the assignment overwrites pixels of `background` in
place and leaves its dimensions unchanged. -/
def process_image (decoded : Option Buffer) (video_width video_height : ℕ) :
    Option Buffer :=
  match decoded with
  | none => none
  | some frame0 =>
    let frame := cvtColor frame0
    let img_width := frame.width
    let img_height := frame.height
    match cvResize (gaussianBlur frame) video_width video_height with
    | none => none
    | some background =>
      match cvResize frame (newWidth img_width img_height video_width video_height)
          (newHeight img_width img_height video_width video_height) with
      | none => none
      | some _resized =>
        if 0 ≤ x_offset img_width img_height video_width video_height ∧
            0 ≤ y_offset img_width img_height video_width video_height ∧
            x_offset img_width img_height video_width video_height +
              (newWidth img_width img_height video_width video_height : ℤ) ≤ (video_width : ℤ) ∧
            y_offset img_width img_height video_width video_height +
              (newHeight img_width img_height video_width video_height : ℤ) ≤ (video_height : ℤ)
        then some background
        else none

/-! ## Geometry lemmas for the Frame Compositor -/

lemma scaled_width_le (srcW srcH W H : ℕ) (hw : 0 < srcW) :
    (srcW : ℚ) * scaleFactor srcW srcH W H ≤ (W : ℚ) := by
  have hW : (srcW : ℚ) * ((W : ℚ) / (srcW : ℚ)) = (W : ℚ) := by
    field_simp
  calc (srcW : ℚ) * scaleFactor srcW srcH W H
      ≤ (srcW : ℚ) * ((W : ℚ) / (srcW : ℚ)) := by
        apply mul_le_mul_of_nonneg_left (min_le_left _ _)
        positivity
    _ = (W : ℚ) := hW

lemma scaled_height_le (srcW srcH W H : ℕ) (hh : 0 < srcH) :
    (srcH : ℚ) * scaleFactor srcW srcH W H ≤ (H : ℚ) := by
  have hH : (srcH : ℚ) * ((H : ℚ) / (srcH : ℚ)) = (H : ℚ) := by
    field_simp
  calc (srcH : ℚ) * scaleFactor srcW srcH W H
      ≤ (srcH : ℚ) * ((H : ℚ) / (srcH : ℚ)) := by
        apply mul_le_mul_of_nonneg_left (min_le_right _ _)
        positivity
    _ = (H : ℚ) := hH

lemma newWidth_le (srcW srcH W H : ℕ) (hw : 0 < srcW) :
    newWidth srcW srcH W H ≤ W := by
  have h := scaled_width_le srcW srcH W H hw
  have hfloor : ⌊(srcW : ℚ) * scaleFactor srcW srcH W H⌋ ≤ (W : ℤ) := by
    have := Int.floor_le_floor h
    simpa using this
  exact Int.toNat_le.mpr hfloor

lemma newHeight_le (srcW srcH W H : ℕ) (hh : 0 < srcH) :
    newHeight srcW srcH W H ≤ H := by
  have h := scaled_height_le srcW srcH W H hh
  have hfloor : ⌊(srcH : ℚ) * scaleFactor srcW srcH W H⌋ ≤ (H : ℤ) := by
    have := Int.floor_le_floor h
    simpa using this
  exact Int.toNat_le.mpr hfloor

lemma newWidth_or_newHeight_exact (srcW srcH W H : ℕ)
    (hw : 0 < srcW) (hh : 0 < srcH) :
    newWidth srcW srcH W H = W ∨ newHeight srcW srcH W H = H := by
  rcases le_total ((W : ℚ) / (srcW : ℚ)) ((H : ℚ) / (srcH : ℚ)) with hmin | hmin
  · left
    have hs : scaleFactor srcW srcH W H = (W : ℚ) / (srcW : ℚ) := min_eq_left hmin
    have hW : (srcW : ℚ) * ((W : ℚ) / (srcW : ℚ)) = (W : ℚ) := by field_simp
    unfold newWidth
    rw [hs, hW]
    simp
  · right
    have hs : scaleFactor srcW srcH W H = (H : ℚ) / (srcH : ℚ) := min_eq_right hmin
    have hH : (srcH : ℚ) * ((H : ℚ) / (srcH : ℚ)) = (H : ℚ) := by field_simp
    unfold newHeight
    rw [hs, hH]
    simp

lemma x_offset_nonneg (srcW srcH W H : ℕ) (hw : 0 < srcW) :
    0 ≤ x_offset srcW srcH W H := by
  have h := newWidth_le srcW srcH W H hw
  unfold x_offset
  rw [Int.fdiv_eq_ediv _ (by norm_num)]
  apply Int.ediv_nonneg _ (by norm_num)
  omega

lemma y_offset_nonneg (srcW srcH W H : ℕ) (hh : 0 < srcH) :
    0 ≤ y_offset srcW srcH W H := by
  have h := newHeight_le srcW srcH W H hh
  unfold y_offset
  rw [Int.fdiv_eq_ediv _ (by norm_num)]
  apply Int.ediv_nonneg _ (by norm_num)
  omega

lemma x_offset_add_le (srcW srcH W H : ℕ) (hw : 0 < srcW) :
    x_offset srcW srcH W H + (newWidth srcW srcH W H : ℤ) ≤ (W : ℤ) := by
  have h := newWidth_le srcW srcH W H hw
  have hnn : (0 : ℤ) ≤ (W : ℤ) - (newWidth srcW srcH W H : ℤ) := by omega
  have hdiv : Int.fdiv ((W : ℤ) - (newWidth srcW srcH W H : ℤ)) 2 ≤
      (W : ℤ) - (newWidth srcW srcH W H : ℤ) := by
    rw [Int.fdiv_eq_ediv _ (by norm_num)]
    exact Int.ediv_le_self _ hnn
  unfold x_offset
  omega

lemma y_offset_add_le (srcW srcH W H : ℕ) (hh : 0 < srcH) :
    y_offset srcW srcH W H + (newHeight srcW srcH W H : ℤ) ≤ (H : ℤ) := by
  have h := newHeight_le srcW srcH W H hh
  have hnn : (0 : ℤ) ≤ (H : ℤ) - (newHeight srcW srcH W H : ℤ) := by omega
  have hdiv : Int.fdiv ((H : ℤ) - (newHeight srcW srcH W H : ℤ)) 2 ≤
      (H : ℤ) - (newHeight srcW srcH W H : ℤ) := by
    rw [Int.fdiv_eq_ediv _ (by norm_num)]
    exact Int.ediv_le_self _ hnn
  unfold y_offset
  omega

/-! ## Claim theorems for the Frame Compositor -/

/-- C2. For every decoded source image with `srcW > 0`, `srcH > 0` and
targets `W`, `H`, the foreground is scaled by the uniform factor
`min(W / srcW, H / srcH)` and the truncated scaled dimensions satisfy
`newWidth ≤ W` and `newHeight ≤ H` component-wise, with at least one of
the two exactly equal to its target, so the foreground is never
cropped. -/
theorem C2_uniform_scale_fits (srcW srcH W H : ℕ)
    (hw : 0 < srcW) (hh : 0 < srcH) :
    newWidth srcW srcH W H ≤ W ∧ newHeight srcW srcH W H ≤ H ∧
      (newWidth srcW srcH W H = W ∨ newHeight srcW srcH W H = H) :=
  ⟨newWidth_le srcW srcH W H hw, newHeight_le srcW srcH W H hh,
    newWidth_or_newHeight_exact srcW srcH W H hw hh⟩

/-- Witness for C2: an 800×600 source on a 1920×1080 canvas. -/
theorem C2_uniform_scale_fits_witness :
    0 < 800 ∧ 0 < 600 ∧
      (newWidth 800 600 1920 1080 ≤ 1920 ∧ newHeight 800 600 1920 1080 ≤ 1080 ∧
        (newWidth 800 600 1920 1080 = 1920 ∨ newHeight 800 600 1920 1080 = 1080)) :=
  ⟨by decide, by decide, C2_uniform_scale_fits 800 600 1920 1080 (by decide) (by decide)⟩

/-- C10. For every decoded source image with positive dimensions, the
paste region computed by `process_image` lies entirely within the `W`×`H`
canvas: `x_offset ≥ 0`, `y_offset ≥ 0`, `x_offset + newWidth ≤ W` and
`y_offset + newHeight ≤ H`, so the NumPy region overwrite is always in
bounds and never writes outside the background buffer. -/
theorem C10_paste_in_bounds (srcW srcH W H : ℕ)
    (hw : 0 < srcW) (hh : 0 < srcH) :
    0 ≤ x_offset srcW srcH W H ∧ 0 ≤ y_offset srcW srcH W H ∧
      x_offset srcW srcH W H + (newWidth srcW srcH W H : ℤ) ≤ (W : ℤ) ∧
      y_offset srcW srcH W H + (newHeight srcW srcH W H : ℤ) ≤ (H : ℤ) :=
  ⟨x_offset_nonneg srcW srcH W H hw, y_offset_nonneg srcW srcH W H hh,
    x_offset_add_le srcW srcH W H hw, y_offset_add_le srcW srcH W H hh⟩

/-- Witness for C10: a 600×800 (portrait) source on a 1920×1080 canvas. -/
theorem C10_paste_in_bounds_witness :
    0 < 600 ∧ 0 < 800 ∧
      (0 ≤ x_offset 600 800 1920 1080 ∧ 0 ≤ y_offset 600 800 1920 1080 ∧
        x_offset 600 800 1920 1080 + (newWidth 600 800 1920 1080 : ℤ) ≤ (1920 : ℤ) ∧
        y_offset 600 800 1920 1080 + (newHeight 600 800 1920 1080 : ℤ) ≤ (1080 : ℤ)) :=
  ⟨by decide, by decide, C10_paste_in_bounds 600 800 1920 1080 (by decide) (by decide)⟩

/-! ## Integer-level evaluation of the scaled dimensions -/

/-- The value of `newWidth` computed purely over ℕ: if the width ratio attains the
minimum the scaled width is exactly `W`, otherwise it is the floor of
`srcW · H / srcH`. -/
lemma newWidth_eval (srcW srcH W H : ℕ) (hw : 0 < srcW) (hh : 0 < srcH) :
    newWidth srcW srcH W H =
      if W * srcH ≤ H * srcW then W else srcW * H / srcH := by
  have hw' : (0 : ℚ) < (srcW : ℚ) := by exact_mod_cast hw
  have hh' : (0 : ℚ) < (srcH : ℚ) := by exact_mod_cast hh
  unfold newWidth scaleFactor
  by_cases hc : W * srcH ≤ H * srcW
  · rw [if_pos hc]
    have hle : (W : ℚ) / (srcW : ℚ) ≤ (H : ℚ) / (srcH : ℚ) := by
      rw [div_le_div_iff₀ hw' hh']
      exact_mod_cast hc
    rw [min_eq_left hle, ← mul_div_assoc, mul_div_cancel_left₀ _ (ne_of_gt hw')]
    simp
  · rw [if_neg hc]
    have hle : (H : ℚ) / (srcH : ℚ) ≤ (W : ℚ) / (srcW : ℚ) := by
      rw [div_le_div_iff₀ hh' hw']
      exact_mod_cast le_of_not_le hc
    rw [min_eq_right hle, ← mul_div_assoc, Int.floor_toNat,
      show (srcW : ℚ) * (H : ℚ) = ((srcW * H : ℕ) : ℚ) by push_cast; ring,
      Nat.floor_div_nat, Nat.floor_natCast]

/-- The value of `newHeight` computed purely over ℕ. -/
lemma newHeight_eval (srcW srcH W H : ℕ) (hw : 0 < srcW) (hh : 0 < srcH) :
    newHeight srcW srcH W H =
      if W * srcH ≤ H * srcW then srcH * W / srcW else H := by
  have hw' : (0 : ℚ) < (srcW : ℚ) := by exact_mod_cast hw
  have hh' : (0 : ℚ) < (srcH : ℚ) := by exact_mod_cast hh
  unfold newHeight scaleFactor
  by_cases hc : W * srcH ≤ H * srcW
  · rw [if_pos hc]
    have hle : (W : ℚ) / (srcW : ℚ) ≤ (H : ℚ) / (srcH : ℚ) := by
      rw [div_le_div_iff₀ hw' hh']
      exact_mod_cast hc
    rw [min_eq_left hle, ← mul_div_assoc, Int.floor_toNat,
      show (srcH : ℚ) * (W : ℚ) = ((srcH * W : ℕ) : ℚ) by push_cast; ring,
      Nat.floor_div_nat, Nat.floor_natCast]
  · rw [if_neg hc]
    have hle : (H : ℚ) / (srcH : ℚ) ≤ (W : ℚ) / (srcW : ℚ) := by
      rw [div_le_div_iff₀ hh' hw']
      exact_mod_cast le_of_not_le hc
    rw [min_eq_right hle, ← mul_div_assoc, mul_div_cancel_left₀ _ (ne_of_gt hh')]
    simp

/-- The general success case of `process_image`: both scaled foreground
dimensions positive and positive targets give a `W`×`H` frame derived
from the source. -/
lemma process_image_some (srcW srcH W H src : ℕ)
    (hw : 0 < srcW) (hh : 0 < srcH) (hW : 0 < W) (hH : 0 < H)
    (hnw : 0 < newWidth srcW srcH W H) (hnh : 0 < newHeight srcW srcH W H) :
    process_image (some ⟨srcW, srcH, src⟩) W H = some ⟨W, H, src⟩ := by
  have hx := x_offset_nonneg srcW srcH W H hw
  have hy := y_offset_nonneg srcW srcH W H hh
  have hxw := x_offset_add_le srcW srcH W H hw
  have hyh := y_offset_add_le srcW srcH W H hh
  simp only [process_image, cvtColor, gaussianBlur, cvResize]
  rw [if_neg (by omega)]
  rw [if_neg (by omega)]
  simp [hx, hy, hxw, hyh]

/-- Evaluation of the scaled width of a 100×100 source on a 1920×1080
canvas. -/
lemma newWidth_eval_square : newWidth 100 100 1920 1080 = 1080 := by
  rw [newWidth_eval 100 100 1920 1080 (by decide) (by decide)]
  decide

/-- Evaluation of the scaled height of a 100×100 source on a 1920×1080
canvas. -/
lemma newHeight_eval_square : newHeight 100 100 1920 1080 = 1080 := by
  rw [newHeight_eval 100 100 1920 1080 (by decide) (by decide)]
  decide

/-- A 100×100 source composited onto the Regular 1920×1080 canvas
succeeds and yields a 1920×1080 frame with the source's identity. -/
lemma process_image_square (src : ℕ) :
    process_image (some ⟨100, 100, src⟩) 1920 1080 = some ⟨1920, 1080, src⟩ :=
  process_image_some 100 100 1920 1080 src (by decide) (by decide) (by decide)
    (by decide) (by rw [newWidth_eval_square]; decide)
    (by rw [newHeight_eval_square]; decide)

/-! ## Claim C1: output dimensions of the Frame Compositor -/

/-- C1, counterexample. The claim "`process_image` returns a pixel
buffer of exactly W×H regardless of the source image's dimensions or
aspect ratio" fails for a decodable 1×1081 source on a 1920×1080 canvas:
`scale = min(1920/1, 1080/1081) = 1080/1081`, so
`new_width = int(1 · 1080/1081) = 0`, the foreground
`cv2.resize(frame, (0, 1080))` raises, and `process_image` returns
`None` instead of a 1920×1080 frame. -/
theorem C1_counterexample_degenerate_aspect :
    process_image (some ⟨1, 1081, 0⟩) 1920 1080 = none := by
  have h : newWidth 1 1081 1920 1080 = 0 := by
    rw [newWidth_eval 1 1081 1920 1080 (by decide) (by decide)]
    decide
  simp [process_image, cvtColor, gaussianBlur, cvResize, h]

/-- C1, amended. For every source image that decodes successfully,
positive targets `W`, `H`, and both truncated scaled foreground
dimensions at least 1 pixel, `process_image` returns a pixel buffer of
exactly `W`×`H` (height `H` rows, width `W` columns) whose pixels derive
from the source; when a scaled dimension truncates to 0 the foreground
resize raises and the image is skipped. -/
theorem C1_amended_frame_dims (srcW srcH W H src : ℕ)
    (hw : 0 < srcW) (hh : 0 < srcH) (hW : 0 < W) (hH : 0 < H)
    (hnw : 0 < newWidth srcW srcH W H) (hnh : 0 < newHeight srcW srcH W H) :
    process_image (some ⟨srcW, srcH, src⟩) W H = some ⟨W, H, src⟩ :=
  process_image_some srcW srcH W H src hw hh hW hH hnw hnh

/-- Positivity of the scaled width of an 800×600 source on 1920×1080. -/
lemma newWidth_pos_800 : 0 < newWidth 800 600 1920 1080 := by
  rw [newWidth_eval 800 600 1920 1080 (by decide) (by decide)]
  decide

/-- Positivity of the scaled height of an 800×600 source on 1920×1080. -/
lemma newHeight_pos_800 : 0 < newHeight 800 600 1920 1080 := by
  rw [newHeight_eval 800 600 1920 1080 (by decide) (by decide)]
  decide

/-- Witness for the amended C1: an 800×600 source on a 1920×1080
canvas. -/
theorem C1_amended_frame_dims_witness :
    (0 < 800 ∧ 0 < 600 ∧ 0 < 1920 ∧ 0 < 1080 ∧
      0 < newWidth 800 600 1920 1080 ∧ 0 < newHeight 800 600 1920 1080) ∧
    process_image (some ⟨800, 600, 7⟩) 1920 1080 = some ⟨1920, 1080, 7⟩ :=
  ⟨⟨by decide, by decide, by decide, by decide, newWidth_pos_800, newHeight_pos_800⟩,
    C1_amended_frame_dims 800 600 1920 1080 7 (by decide) (by decide)
      (by decide) (by decide) newWidth_pos_800 newHeight_pos_800⟩

/-! ## Clip Builder and Timeline Assembler (src/001.py lines 39–83) -/

/-- A Clip: a composited frame wrapped with a display duration and
symmetric fade-in/fade-out lengths
(`ImageClip(image_result).set_duration(time_per_image).fadein(fade_duration).fadeout(fade_duration)`,
src/001.py line 65 and src/YT-Creator.py line 52). -/
structure Clip where
  frameW : ℕ
  frameH : ℕ
  frameSrc : ℕ
  duration : ℚ
  fadeIn : ℚ
  fadeOut : ℚ
deriving DecidableEq

/-- The Clip Builder: wraps a composited frame into a clip.  No clamping
of any kind is applied to the fade lengths. -/
def mkClip (frame : Buffer) (time_per_image fade_duration : ℚ) : Clip :=
  { frameW := frame.width, frameH := frame.height, frameSrc := frame.src,
    duration := time_per_image, fadeIn := fade_duration, fadeOut := fade_duration }

/-- Total duration of a timeline: moviepy `concatenate_videoclips` with
`method="compose"` lays clips back to back, so durations add. -/
def sumDur (clips : List Clip) : ℚ := (clips.map Clip.duration).sum

/-- The collection loop of `generate_video` (src/001.py lines 62–72):
iterate the per-image results in the order `as_completed` yields them,
skip failures, wrap each success into a clip, append it while
`total_duration + time_per_image <= max_duration`, and `break` out of
the loop at the first clip that would exceed the cap.  `total` is the
running `total_duration`. -/
def collectClips (fade_duration time_per_image max_duration : ℚ) :
    List (Option Buffer) → ℚ → List Clip
  | [], _ => []
  | none :: rest, total => collectClips fade_duration time_per_image max_duration rest total
  | some frame :: rest, total =>
    if total + time_per_image ≤ max_duration then
      mkClip frame time_per_image fade_duration ::
        collectClips fade_duration time_per_image max_duration rest (total + time_per_image)
    else []

/-- The per-image results in the order the futures complete.
`completionOrder` lists the indices of the submitted tasks in completion
order; each task runs `process_image` on its image
(src/001.py lines 59–63). -/
def completionResults (images : List (Option Buffer)) (completionOrder : List ℕ)
    (video_width video_height : ℕ) : List (Option Buffer) :=
  completionOrder.filterMap fun i =>
    (images.get? i).map fun img => process_image img video_width video_height

/-- The `video_width` fixed by the mode (src/001.py lines 52–57,
src/YT-Creator.py line 46). -/
def videoWidth (is_shorts : Bool) : ℕ := if is_shorts then 1080 else 1920

/-- The `video_height` fixed by the mode. -/
def videoHeight (is_shorts : Bool) : ℕ := if is_shorts then 1920 else 1080

/-- Outcome of `generate_video` in src/001.py: an early error return with
no output file, or `write_videofile` called on the concatenation of the
collected clips. -/
inductive GenResult
  /-- Early return `if not images: logging.error("No images found…"); return` (lines 44–46). -/
  | noImagesError : GenResult
  /-- Early return `if not video_clips: logging.error("No valid images…"); return` (lines 74–76). -/
  | emptyTimelineError : GenResult
  /-- Call to `write_videofile` reached with these clips, in this order (lines 78–79). -/
  | wrote (clips : List Clip) : GenResult
deriving DecidableEq

/-- Model of `generate_video` from src/001.py lines 39–83, with the on-disk file
listing replaced by the decode results of the (sorted) image paths and
the thread-pool nondeterminism made explicit as the order in which
`as_completed` yields the submitted futures.  `max_duration = 60` is set
unconditionally (line 50) — the mode chooses only the canvas
dimensions.  The second component counts `process_image` invocations:
one per submitted future, i.e. one per image, all of which the executor
runs (the `break` stops consuming results, not running tasks). -/
def generate_video (images : List (Option Buffer)) (completionOrder : List ℕ)
    (time_per_image fade_duration : ℚ) (is_shorts : Bool) :
    GenResult × ℕ :=
  if images.isEmpty then (GenResult.noImagesError, 0)
  else if (collectClips fade_duration time_per_image 60
      (completionResults images completionOrder (videoWidth is_shorts) (videoHeight is_shorts))
      0).isEmpty
  then (GenResult.emptyTimelineError, images.length)
  else (GenResult.wrote (collectClips fade_duration time_per_image 60
      (completionResults images completionOrder (videoWidth is_shorts) (videoHeight is_shorts))
      0), images.length)

/-- Outcome of `generate_video` in src/YT-Creator.py: the function has no
guard for an empty clip list, and `concatenate_videoclips([])` raises
(`max()` over the empty sequence of clip sizes), killing the worker
thread with no output file. -/
inductive GenResultYT
  /-- Unhandled exception out of `concatenate_videoclips` (line 58). -/
  | crashed : GenResultYT
  /-- Call to `write_videofile` reached with these clips, in this order (line 67). -/
  | wrote (clips : List Clip) : GenResultYT
deriving DecidableEq

/-- Model of `generate_video` from src/YT-Creator.py lines 43–71: a sequential
loop over the images in input order, appending a clip for every
successful composite; no duration cap of any kind.  Line 46 assigns
`video_height, video_width = (1920, 1080) if is_shorts else (1080, 1920)`. -/
def generate_videoYT (images : List (Option Buffer)) (time_per_image fade_duration : ℚ)
    (is_shorts : Bool) : GenResultYT :=
  if (images.filterMap fun img =>
      (process_image img (videoWidth is_shorts) (videoHeight is_shorts)).map
        fun f => mkClip f time_per_image fade_duration).isEmpty
  then GenResultYT.crashed
  else GenResultYT.wrote (images.filterMap fun img =>
    (process_image img (videoWidth is_shorts) (videoHeight is_shorts)).map
      fun f => mkClip f time_per_image fade_duration)

/-! ## Timeline Assembler lemmas -/

/-- The duration accumulated by the collection loop never exceeds the cap
once the accumulator is below it. -/
lemma collectClips_total_le (fd t cap : ℚ) :
    ∀ (l : List (Option Buffer)) (total : ℚ), total ≤ cap →
      total + sumDur (collectClips fd t cap l total) ≤ cap := by
  intro l
  induction l with
  | nil => intro total h; simpa [collectClips, sumDur] using h
  | cons hd rest ih =>
    intro total h
    cases hd with
    | none => simpa [collectClips] using ih total h
    | some frame =>
      by_cases hc : total + t ≤ cap
      · have := ih (total + t) hc
        simp only [collectClips, if_pos hc, sumDur, List.map_cons, List.sum_cons, mkClip]
        simp only [sumDur] at this
        linarith
      · simp only [collectClips, if_neg hc, sumDur, List.map_nil, List.sum_nil]
        linarith

/-- The collected clips are the clips of an initial segment of the
successful results, in iteration order: there is a suffix of the
candidate clip list that is dropped whole. -/
lemma collectClips_initseg (fd t cap : ℚ) :
    ∀ (l : List (Option Buffer)) (total : ℚ),
      ∃ dropped, collectClips fd t cap l total ++ dropped =
        (l.filterMap id).map (fun f => mkClip f t fd) := by
  intro l
  induction l with
  | nil => intro total; exact ⟨[], by simp [collectClips]⟩
  | cons hd rest ih =>
    intro total
    cases hd with
    | none => simpa [collectClips] using ih total
    | some frame =>
      by_cases hc : total + t ≤ cap
      · obtain ⟨dropped, hdrop⟩ := ih (total + t)
        exact ⟨dropped, by simp [collectClips, if_pos hc, hdrop]⟩
      · exact ⟨(rest.filterMap id).map (fun f => mkClip f t fd) |>.cons (mkClip frame t fd),
          by simp [collectClips, if_neg hc]⟩

/-- When the loop stops early, the accumulated duration plus one more
clip duration exceeds the cap: the first rejected clip would overflow. -/
lemma collectClips_stop_exceeds (fd t cap : ℚ) :
    ∀ (l : List (Option Buffer)) (total : ℚ),
      (collectClips fd t cap l total).length < (l.filterMap id).length →
      ¬ (total + sumDur (collectClips fd t cap l total) + t ≤ cap) := by
  intro l
  induction l with
  | nil => intro total h; simp [collectClips] at h
  | cons hd rest ih =>
    intro total h
    cases hd with
    | none =>
      simp only [collectClips, List.filterMap_cons, id_eq] at h ⊢
      exact ih total (by simpa using h)
    | some frame =>
      by_cases hc : total + t ≤ cap
      · simp only [collectClips, if_pos hc, List.length_cons,
          List.filterMap_cons, id_eq] at h ⊢
        have := ih (total + t) (by simpa using h)
        simp only [sumDur, List.map_cons, List.sum_cons, mkClip] at this ⊢
        intro habs
        exact this (by linarith)
      · simp only [collectClips, if_neg hc, sumDur, List.map_nil, List.sum_nil]
        intro habs
        exact hc (by linarith)

/-- Any collected clip was built by `mkClip` from a successful result in
the iterated list. -/
lemma collectClips_mem (fd t cap : ℚ) :
    ∀ (l : List (Option Buffer)) (total : ℚ) (c : Clip),
      c ∈ collectClips fd t cap l total → ∃ b, some b ∈ l ∧ c = mkClip b t fd := by
  intro l
  induction l with
  | nil => intro total c hc; simp [collectClips] at hc
  | cons hd rest ih =>
    intro total c hc
    cases hd with
    | none =>
      obtain ⟨b, hb, hcb⟩ := ih total c (by simpa [collectClips] using hc)
      exact ⟨b, List.mem_cons_of_mem _ hb, hcb⟩
    | some frame =>
      by_cases hcond : total + t ≤ cap
      · simp only [collectClips, if_pos hcond, List.mem_cons] at hc
        rcases hc with rfl | hc
        · exact ⟨frame, List.mem_cons_self _ _, rfl⟩
        · obtain ⟨b, hb, hcb⟩ := ih (total + t) c hc
          exact ⟨b, List.mem_cons_of_mem _ hb, hcb⟩
      · simp [collectClips, if_neg hcond] at hc

/-- A successful `cv2.resize` returns a buffer of exactly the requested
size. -/
lemma cvResize_eq_some (img : Buffer) (w h : ℕ) (r : Buffer)
    (hr : cvResize img w h = some r) : r = ⟨w, h, img.src⟩ := by
  by_cases hc : w = 0 ∨ h = 0
  · simp [cvResize, hc] at hr
  · simp [cvResize, hc] at hr
    exact hr.symm

/-- Whenever `process_image` succeeds, the returned frame has exactly the
target dimensions. -/
lemma process_image_eq_some (o : Option Buffer) (W H : ℕ) (f : Buffer)
    (h : process_image o W H = some f) : f.width = W ∧ f.height = H := by
  cases o with
  | none => simp [process_image] at h
  | some b =>
    simp only [process_image, cvtColor, gaussianBlur] at h
    cases hcv1 : cvResize b W H with
    | none => rw [hcv1] at h; simp at h
    | some bg =>
      rw [hcv1] at h
      cases hcv2 : cvResize b (newWidth b.width b.height W H) (newHeight b.width b.height W H) with
      | none => rw [hcv2] at h; simp at h
      | some rs =>
        rw [hcv2] at h
        simp only [] at h
        split_ifs at h
        · have hbg := cvResize_eq_some b W H bg hcv1
          simp only [Option.some.injEq] at h
          rw [← h, hbg]
          exact ⟨rfl, rfl⟩

/-- Every element of `completionResults` is the compositor's output on
some image of the job. -/
lemma completionResults_mem (images : List (Option Buffer)) (ord : List ℕ)
    (W H : ℕ) (r : Option Buffer) (hr : r ∈ completionResults images ord W H) :
    ∃ img, r = process_image img W H := by
  unfold completionResults at hr
  simp only [List.mem_filterMap] at hr
  obtain ⟨i, _, hmap⟩ := hr
  cases hget : images.get? i with
  | none => rw [hget] at hmap; simp at hmap
  | some img =>
    rw [hget] at hmap
    simp only [Option.map_some', Option.some.injEq] at hmap
    exact ⟨img, hmap.symm⟩

/-- Clips built uniformly by `mkClip` contribute `t` each to the total
duration. -/
lemma sumDur_map_mkClip (t fd : ℚ) (l : List Buffer) :
    sumDur (l.map (fun f => mkClip f t fd)) = t * l.length := by
  induction l with
  | nil => simp [sumDur]
  | cons hd rest ih =>
    simp only [sumDur, List.map_cons, List.sum_cons, mkClip] at ih ⊢
    rw [ih]
    simp only [List.length_cons, Nat.cast_add, Nat.cast_one]
    ring

/-! ## Claim C3: the duration-cap policy of the Timeline Assembler -/

/-- C3. With a duration cap active, the assembly loop iterates the
(successfully composited) clips in order, appends a clip only if the
accumulated duration plus that clip's duration stays within the cap,
and stops at the first clip that would exceed it, without aborting:
the total assembled duration never exceeds the cap, the appended clips
are an initial segment of the candidate clips (the dropped clips are
exactly the remaining suffix), and when a clip was rejected the
accumulated duration plus one more clip would exceed the cap. -/
theorem C3_cap_policy (fd t cap : ℚ) (results : List (Option Buffer))
    (h0 : 0 ≤ cap) :
    sumDur (collectClips fd t cap results 0) ≤ cap ∧
    (∃ dropped, collectClips fd t cap results 0 ++ dropped =
        (results.filterMap id).map (fun f => mkClip f t fd)) ∧
    ((collectClips fd t cap results 0).length < (results.filterMap id).length →
      ¬ (sumDur (collectClips fd t cap results 0) + t ≤ cap)) := by
  refine ⟨?_, collectClips_initseg fd t cap results 0, ?_⟩
  · have h := collectClips_total_le fd t cap results 0 h0
    linarith
  · intro hlt habs
    exact collectClips_stop_exceeds fd t cap results 0 hlt (by linarith)

/-- Fact `0 ≤ 8` over ℚ (cap nonnegativity for the C3 witness). -/
lemma zero_le_eight_q : (0 : ℚ) ≤ 8 := by norm_num

/-- Witness for C3: two five-second clips against an eight-second cap. -/
theorem C3_cap_policy_witness :
    (0 : ℚ) ≤ 8 ∧
    (sumDur (collectClips 1 5 8 [some ⟨1920, 1080, 0⟩, some ⟨1920, 1080, 1⟩] 0) ≤ 8 ∧
      (∃ dropped, collectClips 1 5 8 [some ⟨1920, 1080, 0⟩, some ⟨1920, 1080, 1⟩] 0 ++ dropped =
          (([some ⟨1920, 1080, 0⟩, some ⟨1920, 1080, 1⟩] : List (Option Buffer)).filterMap id).map
            (fun f => mkClip f 5 1)) ∧
      ((collectClips 1 5 8 [some ⟨1920, 1080, 0⟩, some ⟨1920, 1080, 1⟩] 0).length <
          (([some ⟨1920, 1080, 0⟩, some ⟨1920, 1080, 1⟩] : List (Option Buffer)).filterMap id).length →
        ¬ (sumDur (collectClips 1 5 8 [some ⟨1920, 1080, 0⟩, some ⟨1920, 1080, 1⟩] 0) + 5 ≤ 8))) :=
  ⟨zero_le_eight_q,
    C3_cap_policy 1 5 8 [some ⟨1920, 1080, 0⟩, some ⟨1920, 1080, 1⟩] zero_le_eight_q⟩

/-! ## Concrete evaluations of generate_video (src/001.py) -/

/-- Two decodable 100×100 images, Regular mode, 31 s per image: the first
clip fits the 60 s cap, the second (31 + 31 = 62 > 60) is dropped even
though it composited successfully — the cap is active in Regular mode. -/
lemma gen_eval_capped :
    generate_video [some ⟨100, 100, 0⟩, some ⟨100, 100, 1⟩] [0, 1] 31 1 false =
      (GenResult.wrote [mkClip ⟨1920, 1080, 0⟩ 31 1], 2) := by
  have h0 := process_image_square 0
  have h1 := process_image_square 1
  norm_num [generate_video, completionResults, collectClips, videoWidth, videoHeight, h0, h1,
    List.filterMap_cons, List.filterMap_nil]

/-- Two decodable 100×100 images whose futures complete in reverse order:
the clips are appended in completion order `[1, 0]`. -/
lemma gen_eval_rev :
    generate_video [some ⟨100, 100, 0⟩, some ⟨100, 100, 1⟩] [1, 0] 5 1 false =
      (GenResult.wrote [mkClip ⟨1920, 1080, 1⟩ 5 1, mkClip ⟨1920, 1080, 0⟩ 5 1], 2) := by
  have h0 := process_image_square 0
  have h1 := process_image_square 1
  norm_num [generate_video, completionResults, collectClips, videoWidth, videoHeight, h0, h1,
    List.filterMap_cons, List.filterMap_nil]

/-- One decodable 100×100 image, Regular mode, 5 s per image. -/
lemma gen_eval_single :
    generate_video [some ⟨100, 100, 0⟩] [0] 5 1 false =
      (GenResult.wrote [mkClip ⟨1920, 1080, 0⟩ 5 1], 1) := by
  have h0 := process_image_square 0
  norm_num [generate_video, completionResults, collectClips, videoWidth, videoHeight, h0,
    List.filterMap_cons, List.filterMap_nil]

/-- An invalid configuration (`time_per_image = -1`, `fade_duration = -1`)
is not rejected: the compositor runs on the single image and a clip with
negative duration and fades is written. -/
lemma gen_eval_invalid :
    generate_video [some ⟨100, 100, 3⟩] [0] (-1) (-1) false =
      (GenResult.wrote [mkClip ⟨1920, 1080, 3⟩ (-1) (-1)], 1) := by
  have h0 := process_image_square 3
  norm_num [generate_video, completionResults, collectClips, videoWidth, videoHeight, h0,
    List.filterMap_cons, List.filterMap_nil]

/-! ## Claim C4: what the mode actually determines -/

/-- C4, counterexample. In Regular mode (`is_shorts = false`) with two
images of 31 s each, both composite successfully (2 successful results)
but only one clip is appended before `write_videofile`: the 60-second
cap is applied in Regular mode as well, refuting "Regular mode applies no
cap — every successfully composited clip is appended and the total
duration equals the sum of all clip durations". -/
theorem C4_counterexample_regular_mode_cap :
    (generate_video [some ⟨100, 100, 0⟩, some ⟨100, 100, 1⟩] [0, 1] 31 1 false).1 =
      GenResult.wrote [mkClip ⟨1920, 1080, 0⟩ 31 1] ∧
    ((completionResults [some ⟨100, 100, 0⟩, some ⟨100, 100, 1⟩] [0, 1]
        (videoWidth false) (videoHeight false)).filterMap id).length = 2 ∧
    ([mkClip ⟨1920, 1080, 0⟩ 31 1] : List Clip).length = 1 := by
  refine ⟨by rw [gen_eval_capped], ?_, rfl⟩
  have h0 := process_image_square 0
  have h1 := process_image_square 1
  simp [completionResults, videoWidth, videoHeight, h0, h1, List.filterMap_cons]

/-- C4, amended. The mode determines only the canvas (Shorts:
1080×1920, Regular: 1920×1080).  In src/001.py the 60-second cap applies
in *both* modes: every written timeline has total duration ≤ 60 and every
frame matches the mode's canvas.  In src/YT-Creator.py *no* cap applies
in either mode: every successfully composited clip is appended, the
total duration equals perImageDuration times the clip count, and every
frame matches the mode's canvas. -/
theorem C4_amended_mode_canvas_cap :
    ∀ (images : List (Option Buffer)) (ord : List ℕ) (t fd : ℚ) (m : Bool),
      (∀ clips, (generate_video images ord t fd m).1 = GenResult.wrote clips →
        sumDur clips ≤ 60 ∧
        ∀ c ∈ clips, c.frameW = videoWidth m ∧ c.frameH = videoHeight m) ∧
      (∀ clips, generate_videoYT images t fd m = GenResultYT.wrote clips →
        sumDur clips = t * clips.length ∧
        clips.length =
          (images.filterMap fun img =>
            process_image img (videoWidth m) (videoHeight m)).length ∧
        ∀ c ∈ clips, c.frameW = videoWidth m ∧ c.frameH = videoHeight m) := by
  intro images ord t fd m
  constructor
  · intro clips h
    unfold generate_video at h
    by_cases hemp : images.isEmpty = true
    · rw [if_pos hemp] at h
      simp at h
    · rw [if_neg hemp] at h
      by_cases hcl : (collectClips fd t 60
          (completionResults images ord (videoWidth m) (videoHeight m)) 0).isEmpty = true
      · rw [if_pos hcl] at h
        simp at h
      · rw [if_neg hcl] at h
        simp only [GenResult.wrote.injEq] at h
        rw [← h]
        constructor
        · have h60 : (0 : ℚ) ≤ 60 := by norm_num
          have := collectClips_total_le fd t 60
            (completionResults images ord (videoWidth m) (videoHeight m)) 0 h60
          linarith
        · intro c hc
          obtain ⟨b, hb, rfl⟩ := collectClips_mem fd t 60 _ 0 c hc
          obtain ⟨img, himg⟩ := completionResults_mem images ord _ _ (some b) hb
          have hd := process_image_eq_some img _ _ b himg.symm
          exact ⟨hd.1, hd.2⟩
  · intro clips h
    unfold generate_videoYT at h
    by_cases hemp : (images.filterMap fun img =>
        (process_image img (videoWidth m) (videoHeight m)).map
          fun f => mkClip f t fd).isEmpty = true
    · rw [if_pos hemp] at h
      simp at h
    · rw [if_neg hemp] at h
      simp only [GenResultYT.wrote.injEq] at h
      have hmap : (images.filterMap fun img =>
          (process_image img (videoWidth m) (videoHeight m)).map
            fun f => mkClip f t fd) =
          (images.filterMap fun img =>
            process_image img (videoWidth m) (videoHeight m)).map
            (fun f => mkClip f t fd) :=
        (List.map_filterMap
          (fun img => process_image img (videoWidth m) (videoHeight m))
          (fun f => mkClip f t fd) images).symm
      rw [hmap] at h
      rw [← h]
      refine ⟨?_, by simp, ?_⟩
      · rw [sumDur_map_mkClip, List.length_map]
      · intro c hc
        simp only [List.mem_map, List.mem_filterMap] at hc
        obtain ⟨b, ⟨img, _, himg⟩, rfl⟩ := hc
        have hd := process_image_eq_some img _ _ b himg
        exact ⟨hd.1, hd.2⟩

/-- Witness for the amended C4: one 100×100 image, Regular mode, 5 s. -/
theorem C4_amended_mode_canvas_cap_witness :
    (generate_video [some ⟨100, 100, 0⟩] [0] 5 1 false).1 =
      GenResult.wrote [mkClip ⟨1920, 1080, 0⟩ 5 1] ∧
    (sumDur [mkClip ⟨1920, 1080, 0⟩ 5 1] ≤ 60 ∧
      ∀ c ∈ [mkClip ⟨1920, 1080, 0⟩ 5 1],
        c.frameW = videoWidth false ∧ c.frameH = videoHeight false) :=
  ⟨by rw [gen_eval_single],
    (C4_amended_mode_canvas_cap [some ⟨100, 100, 0⟩] [0] 5 1 false).1
      [mkClip ⟨1920, 1080, 0⟩ 5 1] (by rw [gen_eval_single])⟩

/-! ## Claim C5: clip order under concurrent completion -/

/-- C5. The collection loop of src/001.py iterates
`as_completed(futures)` and appends clips in *completion* order, never
re-sorting: with two decodable images whose futures complete in reverse
order, the written timeline is `[image 1, image 0]`, which differs from
the original input order restricted to successfully decoded images
(`[image 0, image 1]`).  Completion order therefore does affect output
order. -/
theorem C5_completion_order_bug :
    (generate_video [some ⟨100, 100, 0⟩, some ⟨100, 100, 1⟩] [1, 0] 5 1 false).1 =
      GenResult.wrote [mkClip ⟨1920, 1080, 1⟩ 5 1, mkClip ⟨1920, 1080, 0⟩ 5 1] ∧
    [mkClip ⟨1920, 1080, 1⟩ 5 1, mkClip ⟨1920, 1080, 0⟩ 5 1].map Clip.frameSrc ≠
      ([some ⟨100, 100, 0⟩, some ⟨100, 100, 1⟩] : List (Option Buffer)).filterMap
        (fun o => o.map Buffer.src) := by
  constructor
  · rw [gen_eval_rev]
  · simp [mkClip, List.filterMap_cons]

/-! ## Claim C6: the empty-timeline failure path -/

/-- C6. If zero clips survive assembly (every image failed to decode,
or the first clip already exceeds the cap), `generate_video` takes the
`if not video_clips` early-return branch (the `EmptyTimelineError` of the
spec's taxonomy): the job fails and `write_videofile` is never reached,
so no output file is produced. -/
theorem C6_empty_timeline (images : List (Option Buffer)) (ord : List ℕ)
    (t fd : ℚ) (m : Bool) (hne : images ≠ [])
    (hzero : collectClips fd t 60
        (completionResults images ord (videoWidth m) (videoHeight m)) 0 = []) :
    (generate_video images ord t fd m).1 = GenResult.emptyTimelineError ∧
    ∀ clips, (generate_video images ord t fd m).1 ≠ GenResult.wrote clips := by
  have hne' : images.isEmpty = false := by
    cases images with
    | nil => exact absurd rfl hne
    | cons a l => rfl
  constructor
  · unfold generate_video
    rw [hne']
    simp [hzero]
  · intro clips
    unfold generate_video
    rw [hne']
    simp [hzero]

/-- With a single undecodable image nothing survives assembly. -/
lemma collect_none_eval :
    collectClips 1 5 60
      (completionResults [none] [0] (videoWidth false) (videoHeight false)) 0 = [] := by
  simp [completionResults, collectClips, process_image, videoWidth, videoHeight,
    List.filterMap_cons, List.filterMap_nil]

/-- Witness for C6: one image that fails to decode. -/
theorem C6_empty_timeline_witness :
    (([none] : List (Option Buffer)) ≠ [] ∧
      collectClips 1 5 60
        (completionResults [none] [0] (videoWidth false) (videoHeight false)) 0 = []) ∧
    ((generate_video [none] [0] 5 1 false).1 = GenResult.emptyTimelineError ∧
      ∀ clips, (generate_video [none] [0] 5 1 false).1 ≠ GenResult.wrote clips) :=
  ⟨⟨List.cons_ne_nil _ _, collect_none_eval⟩,
    C6_empty_timeline [none] [0] 5 1 false (List.cons_ne_nil _ _) collect_none_eval⟩

/-! ## Audio Synchronizer (src/001.py lines 85–96) -/

/-- An audio track: its duration and its waveform as a function of time.
`AudioFileClip` objects are never mutated by the operations below — each
moviepy effect constructs a new derived clip. -/
structure AudioTrack where
  duration : ℚ
  samples : ℚ → ℚ

/-- Model of `audio_clip.subclip(0, t_end)`: a derived track of duration `t_end`
whose waveform is the original's shifted by the start time 0, i.e.
unchanged. -/
def audio_subclip (a : AudioTrack) (t_end : ℚ) : AudioTrack :=
  { duration := t_end, samples := fun t => a.samples (t + 0) }

/-- Model of `audio_fadein(d)`: moviepy multiplies the waveform by the linear ramp
`min(1, t / d)`; the duration is unchanged. -/
def audio_fadein (a : AudioTrack) (d : ℚ) : AudioTrack :=
  { duration := a.duration, samples := fun t => a.samples t * min 1 (t / d) }

/-- Model of `audio_fadeout(d)`: moviepy multiplies the waveform by the linear
ramp `min(1, (duration - t) / d)`; the duration is unchanged. -/
def audio_fadeout (a : AudioTrack) (d : ℚ) : AudioTrack :=
  { duration := a.duration, samples := fun t => a.samples t * min 1 ((a.duration - t) / d) }

/-- The audio derivation of `add_audio_to_video` (src/001.py line 90):
`audio_clip.subclip(0, video_clip.duration).audio_fadein(fade_duration).audio_fadeout(fade_duration)`. -/
def add_audio_to_video (track : AudioTrack) (video_duration fade_duration : ℚ) :
    AudioTrack :=
  audio_fadeout (audio_fadein (audio_subclip track video_duration) fade_duration)
    fade_duration

/-- Model of the audio binding in src/YT-Creator.py lines 61–64:
`final_audio = audio_clip.subclip(0, final_video.duration)` — the track
is trimmed to the video's duration and bound as-is; no `audio_fadein`
and no `audio_fadeout` are applied in this file. -/
def add_audio_to_video_yt (track : AudioTrack) (video_duration : ℚ) : AudioTrack :=
  audio_subclip track video_duration

/-! ## Claim C7: audio trimming and fade envelopes -/

/-- C7, counterexample. The claim's cited source src/YT-Creator.py
lines 61–64 only trims the audio and applies no fade at all: with a
constant unit-amplitude ten-second track bound to a four-second
timeline, the sample at `t = 1` is still `1`, not the value
`1 · min(1, 1/2) · min(1, 3/2) = 1/2` that a linear fade-in of length
`F = 2` would impose, so that variant's synchronized track does not
carry the claimed fade envelopes (the trim itself does hold). -/
theorem C7_counterexample_yt_no_fade :
    (add_audio_to_video_yt (AudioTrack.mk 10 fun _ => 1) 4).duration = 4 ∧
    (add_audio_to_video_yt (AudioTrack.mk 10 fun _ => 1) 4).samples 1 = 1 ∧
    ¬ ((add_audio_to_video_yt (AudioTrack.mk 10 fun _ => 1) 4).samples 1 =
        (AudioTrack.mk 10 fun _ => 1).samples (1 + 0) * min 1 ((1 : ℚ) / 2) *
          min 1 (((4 : ℚ) - 1) / 2)) := by
  refine ⟨rfl, rfl, ?_⟩
  simp only [add_audio_to_video_yt, audio_subclip]
  norm_num

/-- C7, amended. For every audio track at least as long as the timeline
duration `D`: in src/001.py, `add_audio_to_video` trims the track to
exactly `[0, D]` (the derived duration equals `D`) and applies a linear
fade-in of length `F` at the start and a linear fade-out of length `F`
at the end of the trimmed track; in src/YT-Creator.py the track is only
trimmed to exactly `[0, D]` and bound as-is, with no fade applied.  In
both files each step builds a new derived track from the input's
waveform (the input itself is a value the derivations never modify). -/
theorem C7_amended_audio_sync (track : AudioTrack) (D F : ℚ)
    (hD : D ≤ track.duration) :
    ((add_audio_to_video track D F).duration = D ∧
      ∀ t, (add_audio_to_video track D F).samples t =
        track.samples (t + 0) * min 1 (t / F) * min 1 ((D - t) / F)) ∧
    ((add_audio_to_video_yt track D).duration = D ∧
      ∀ t, (add_audio_to_video_yt track D).samples t = track.samples (t + 0)) :=
  ⟨⟨rfl, fun _ => rfl⟩, rfl, fun _ => rfl⟩

/-- Fact `4 ≤ 10` over ℚ (the C7 witness track is long enough). -/
lemma four_le_ten_q : (4 : ℚ) ≤ 10 := by norm_num

/-- Witness for the amended C7: a constant ten-second track against a
four-second timeline with two-second fades. -/
theorem C7_amended_audio_sync_witness :
    (4 : ℚ) ≤ (AudioTrack.mk 10 fun _ => 1).duration ∧
    (((add_audio_to_video (AudioTrack.mk 10 fun _ => 1) 4 2).duration = 4 ∧
      ∀ t, (add_audio_to_video (AudioTrack.mk 10 fun _ => 1) 4 2).samples t =
        (AudioTrack.mk 10 fun _ => 1).samples (t + 0) * min 1 (t / 2) *
          min 1 ((4 - t) / 2)) ∧
    ((add_audio_to_video_yt (AudioTrack.mk 10 fun _ => 1) 4).duration = 4 ∧
      ∀ t, (add_audio_to_video_yt (AudioTrack.mk 10 fun _ => 1) 4).samples t =
        (AudioTrack.mk 10 fun _ => 1).samples (t + 0))) :=
  ⟨four_le_ten_q, C7_amended_audio_sync (AudioTrack.mk 10 fun _ => 1) 4 2 four_le_ten_q⟩

/-! ## Claim C8: job validation -/

/-- C8, counterexample. A job with `time_per_image = -1` (not
positive) and `fade_duration = -1` (negative) is an invalid configuration
the claim says must fail fast with no compositor call; instead
`generate_video` runs the Frame Compositor on its one image (the call
count is 1, not 0) and even writes a clip with negative duration and
fades. -/
theorem C8_counterexample_no_validation :
    ((-1 : ℚ) ≤ 0 ∧ (-1 : ℚ) < 0) ∧
    (generate_video [some ⟨100, 100, 3⟩] [0] (-1) (-1) false).2 = 1 ∧
    (generate_video [some ⟨100, 100, 3⟩] [0] (-1) (-1) false).1 =
      GenResult.wrote [mkClip ⟨1920, 1080, 3⟩ (-1) (-1)] := by
  refine ⟨⟨by norm_num, by norm_num⟩, ?_, ?_⟩ <;> rw [gen_eval_invalid]

/-- C8, amended. Only the empty-image-list condition is validated:
with no images `generate_video` returns its error before any compositor
call (0 calls); with a nonempty list the compositor is invoked once per
image regardless of `time_per_image` or `fade_duration`, which are never
checked. -/
theorem C8_amended_empty_check_only :
    ∀ (images : List (Option Buffer)) (ord : List ℕ) (t fd : ℚ) (m : Bool),
      (images = [] → generate_video images ord t fd m = (GenResult.noImagesError, 0)) ∧
      (images ≠ [] → (generate_video images ord t fd m).2 = images.length) := by
  intro images ord t fd m
  constructor
  · rintro rfl
    rfl
  · intro hne
    have hne' : images.isEmpty = false := by
      cases images with
      | nil => exact absurd rfl hne
      | cons a l => rfl
    unfold generate_video
    rw [hne']
    simp only [Bool.false_eq_true, if_false]
    split <;> rfl

/-- Witness for the amended C8: one decodable image with a valid
configuration still gets exactly one compositor call. -/
theorem C8_amended_empty_check_only_witness :
    (([some ⟨100, 100, 3⟩] : List (Option Buffer)) ≠ []) ∧
    (generate_video [some ⟨100, 100, 3⟩] [0] 5 1 false).2 =
      ([some ⟨100, 100, 3⟩] : List (Option Buffer)).length :=
  ⟨List.cons_ne_nil _ _,
    (C8_amended_empty_check_only [some ⟨100, 100, 3⟩] [0] 5 1 false).2
      (List.cons_ne_nil _ _)⟩

/-! ## Claim C9: the fade-length invariant of clips -/

/-- C9, counterexample. The Clip Builder
(`set_duration(5).fadein(3).fadeout(3)`) performs no clamping: with
`perImageDuration = 5 > 0` and `fadeDuration = 3 ≥ 0` the produced clip
has `fadeIn + fadeOut = 6 > 5 = duration`, violating the invariant the
claim says is enforced at construction time. -/
theorem C9_counterexample_fades_exceed :
    ((0 : ℚ) < 5 ∧ (0 : ℚ) ≤ 3) ∧
    ¬ ((mkClip ⟨1920, 1080, 0⟩ 5 3).fadeIn + (mkClip ⟨1920, 1080, 0⟩ 5 3).fadeOut ≤
        (mkClip ⟨1920, 1080, 0⟩ 5 3).duration) := by
  refine ⟨⟨by norm_num, by norm_num⟩, ?_⟩
  simp only [mkClip]
  norm_num

/-- C9, amended. The Clip Builder copies the caller's fade length
into both `fadeIn` and `fadeOut` unchanged, so `fadeIn + fadeOut ≤
duration` holds exactly when the caller's parameters satisfy
`2 · fadeDuration ≤ perImageDuration`; no clamping or rejection is
performed. -/
theorem C9_amended_fade_clamp (f : Buffer) (d F : ℚ) (h : 2 * F ≤ d) :
    (mkClip f d F).fadeIn + (mkClip f d F).fadeOut ≤ (mkClip f d F).duration := by
  simp only [mkClip]
  linarith

/-- Fact `2 · 1 ≤ 5` over ℚ (the C9 witness configuration is well-behaved). -/
lemma two_mul_one_le_five_q : (2 : ℚ) * 1 ≤ 5 := by norm_num

/-- Witness for the amended C9: duration 5 with fade 1. -/
theorem C9_amended_fade_clamp_witness :
    (2 : ℚ) * 1 ≤ 5 ∧
    (mkClip ⟨1920, 1080, 0⟩ 5 1).fadeIn + (mkClip ⟨1920, 1080, 0⟩ 5 1).fadeOut ≤
      (mkClip ⟨1920, 1080, 0⟩ 5 1).duration :=
  ⟨two_mul_one_le_five_q,
    C9_amended_fade_clamp ⟨1920, 1080, 0⟩ 5 1 two_mul_one_le_five_q⟩
